import Mathlib

/-!
Verification of the `deepwork` productivity toolkit (Python) against its
natural-language specification, via a shallow embedding in Lean 4.

Modules embedded:
* `src/deepwork/prioritize.py` — `prioritize_tasks` (task ranking);
* `src/deepwork/affirmation.py` — `get_affirmation` (weighted-random
  affirmation selection; the module-global `random` generator of the Python
  standard library is threaded explicitly as state);
* `src/deepwork/pomodoro.py` — `plan_pomodoro` (the file in the repository
  holds only the signature and docstring, no body; the behaviour is modelled
  from the specification, see the doc comments below).

Python floats are embedded as exact rationals (`ℚ`); machine dates are
embedded as civil-calendar day numbers (`Int`), with "today" an explicit
parameter.  Fallible operations return `Except PyErr`.
-/

namespace DeepWork

/-- Python's two documented failure kinds, `TypeError` and `ValueError`,
each carrying its message — plus `IndexError`, which no validation emits
but `candidates[-1]` would raise on an empty list. -/
inductive PyErr where
  | typeError (msg : String) : PyErr
  | valueError (msg : String) : PyErr
  | indexError (msg : String) : PyErr
deriving DecidableEq, Repr

deriving instance DecidableEq for Except

/-- Round-half-to-even on rationals, the rounding mode of Python's built-in
`round`. -/
def roundHalfEven (x : ℚ) : ℤ :=
  let f : ℤ := ⌊x⌋
  let r : ℚ := x - f
  if r < 1/2 then f
  else if 1/2 < r then f + 1
  else if f % 2 = 0 then f else f + 1

/-- `round(x, 2)` of Python, on exact rationals. -/
def round2 (x : ℚ) : ℚ := (roundHalfEven (x * 100) : ℚ) / 100

/-! ## Embedding of `src/deepwork/prioritize.py` -/

/-- A task dictionary: `name` is required; `deadline`, `effort` and
`importance` are optional keys (`none` = key absent).  A present `deadline`
holds the raw string. -/
structure Task where
  name : String
  deadline : Option String := none
  effort : Option Int := none
  importance : Option Int := none
deriving DecidableEq, Repr

/-- The optional `weights` mapping: each key may be absent. -/
structure Weights where
  importance : Option ℚ := none
  effort : Option ℚ := none
  deadline : Option ℚ := none
deriving DecidableEq, Repr

/-- An output row: the original task fields (`task`), the computed
`priority_score`, the `days_until_deadline` column (outer `Option`: the key
is present in the row at all — only for the deadline method; inner
`Option`: the recorded value, which may be Python `None`), and the assigned
`rank`. -/
structure RankedTask where
  task : Task
  priority_score : ℚ
  days_until_deadline : Option (Option Int) := none
  rank : Nat := 0
deriving DecidableEq, Repr

def VALID_METHODS : List String := ["weighted", "deadline"]

/-- Digits of a decimal numeral to its value (most significant first). -/
def digitsVal (cs : List Char) : Nat :=
  cs.foldl (fun acc c => acc * 10 + (c.toNat - 48)) 0

/-- Gregorian leap year, as Python's `calendar`/`datetime` implement it. -/
def isLeap (y : Nat) : Bool :=
  (y % 4 == 0 && y % 100 != 0) || y % 400 == 0

/-- Length of month `m` of year `y` (Python `datetime.date` validation). -/
def daysInMonth (y m : Nat) : Nat :=
  if m = 2 then (if isLeap y then 29 else 28)
  else if m = 4 ∨ m = 6 ∨ m = 9 ∨ m = 11 then 30
  else 31

/-- Modelled from the Python standard library (not part of this repository):
`datetime.strptime(s, "%Y-%m-%d")` on the month-day tail.  The `%m` and `%d`
directives accept one or two digits (values 1–12 and 1–31), the whole string
must be consumed, and `datetime.date` construction then rejects a day that
does not exist in the month.  `parseMonthDay` receives the characters after
`"YYYY-"`. -/
def parseMonthDay (y : Nat) (cs : List Char) : Option (Nat × Nat × Nat) :=
  let ms := cs.takeWhile Char.isDigit
  let rest := cs.dropWhile Char.isDigit
  if ms.length = 0 ∨ 2 < ms.length then none
  else
    match rest with
    | '-' :: rest2 =>
      let ds := rest2.takeWhile Char.isDigit
      let rest3 := rest2.dropWhile Char.isDigit
      if ds.length = 0 ∨ 2 < ds.length ∨ rest3 ≠ [] then none
      else
        let m := digitsVal ms
        let d := digitsVal ds
        if 1 ≤ m ∧ m ≤ 12 ∧ 1 ≤ d ∧ d ≤ daysInMonth y m ∧ 1 ≤ y then
          some (y, m, d)
        else none
    | _ => none

/-- Modelled from the Python standard library (not part of this repository):
`datetime.strptime(s, "%Y-%m-%d").date()`.  `%Y` requires exactly four
digits; an unconsumed tail or an invalid calendar date raises `ValueError`
(here: `none`). -/
def parseYMD (cs : List Char) : Option (Nat × Nat × Nat) :=
  match cs with
  | a :: b :: c :: d :: '-' :: rest =>
    if a.isDigit && b.isDigit && c.isDigit && d.isDigit then
      parseMonthDay (digitsVal [a, b, c, d]) rest
    else none
  | _ => none

/-- Day number of a civil date (proleptic Gregorian, days since 1970-01-01),
the standard days-from-civil algorithm; embeds Python `date` subtraction:
`(d1 - d2).days = daysFromCivil d1 - daysFromCivil d2`. -/
def daysFromCivil (ymd : Nat × Nat × Nat) : Int :=
  let y := ymd.1
  let m := ymd.2.1
  let d := ymd.2.2
  let y' := if m ≤ 2 then y - 1 else y
  let era := y' / 400
  let yoe := y' % 400
  let mp := (m + 9) % 12
  let doy := (153 * mp + 2) / 5 + d - 1
  let doe := yoe * 365 + yoe / 4 - yoe / 100 + doy
  (era * 146097 + doe : Int) - 719468

/-- `days_left` of the source: days from `today` to the parsed deadline. -/
def daysLeft (today : Int) (ymd : Nat × Nat × Nat) : Int :=
  daysFromCivil ymd - today

/-- The weighted method's deadline urgency score (prioritize.py lines
90–107): default middle score 3; a present, truthy, parseable deadline is
bucketed by `days_left`; a parse failure keeps the default. -/
def deadline_score (today : Int) (t : Task) : ℚ :=
  match t.deadline with
  | none => 3
  | some s =>
    if s = "" then 3
    else
      match parseYMD s.data with
      | none => 3
      | some ymd =>
        let dl := daysLeft today ymd
        if dl ≤ 1 then 5
        else if dl ≤ 3 then 4
        else if dl ≤ 7 then 3
        else if dl ≤ 14 then 2
        else 1

/-- Per-task score of the weighted method (prioritize.py lines 86–112):
`importance * w_imp + (6 - effort) * w_eff + deadline_score * w_dead`,
rounded to two decimals; `importance` and `effort` default to 3. -/
def weighted_score (w_imp w_eff w_dead : ℚ) (today : Int) (t : Task) : ℚ :=
  let importance : ℚ := (t.importance.getD 3 : Int)
  let effort : ℚ := (t.effort.getD 3 : Int)
  let effort_score : ℚ := 6 - effort
  round2 (importance * w_imp + effort_score * w_eff + deadline_score today t * w_dead)

/-- Per-task score and `days_left` of the deadline method (prioritize.py
lines 120–131): `max(0, 100 - days_left)` for a parseable deadline, else
score 0 with `days_left = None`. -/
def deadline_method_score (today : Int) (t : Task) : ℚ × Option Int :=
  match t.deadline with
  | none => (0, none)
  | some s =>
    if s = "" then (0, none)
    else
      match parseYMD s.data with
      | none => (0, none)
      | some ymd =>
        let dl := daysLeft today ymd
        ((max 0 (100 - dl) : Int), some dl)

/-- The scoring pass (prioritize.py lines 81–137): one output row per task,
in input order, before sorting; `rank` not yet assigned.  The deadline
method always adds the `days_until_deadline` key, with value
`days_left if "deadline" in task else None`. -/
def scored_tasks (today : Int) (method : String) (w_imp w_eff w_dead : ℚ)
    (tasks : List Task) : List RankedTask :=
  if method = "weighted" then
    tasks.map (fun t =>
      { task := t
        priority_score := weighted_score w_imp w_eff w_dead today t })
  else
    tasks.map (fun t =>
      let sd := deadline_method_score today t
      { task := t
        priority_score := sd.1
        days_until_deadline := some (if t.deadline.isSome then sd.2 else none) })

/-- Stable insertion of `x` into a descending-sorted list: `x` goes in front
of the first element whose key is `≤` its own.  Together with `sortDesc`
this is extensionally Python's `list.sort(key=..., reverse=True)`, which is
stable and descending. -/
def insertDesc (key : α → ℚ) (x : α) : List α → List α
  | [] => [x]
  | y :: ys => if key y ≤ key x then x :: y :: ys else y :: insertDesc key x ys

/-- Stable descending sort by `key` (Python `list.sort(key, reverse=True)`). -/
def sortDesc (key : α → ℚ) : List α → List α
  | [] => []
  | x :: xs => insertDesc key x (sortDesc key xs)

/-- Rank assignment (prioritize.py lines 141–142): position + 1. -/
def assign_ranks (l : List RankedTask) : List RankedTask :=
  l.enum.map (fun p => { p.2 with rank := p.1 + 1 })

/-- The three effective weights (prioritize.py lines 74–84): `weights`
defaults to the full default mapping, and each key then defaults
individually in `weights.get(key, default)`. -/
def effective_weights (weights : Option Weights) : ℚ × ℚ × ℚ :=
  let w := weights.getD {}
  (w.importance.getD (1/2), w.effort.getD (3/10), w.deadline.getD (1/5))

/-- Embedding of `prioritize_tasks` (prioritize.py lines 9–144).  Checks the
type system cannot discharge are kept in source order: the empty-list check,
then the method check.  `today` embeds the ambient `date.today()`. -/
def prioritize_tasks (today : Int) (tasks : List Task) (method : String)
    (weights : Option Weights) : Except PyErr (List RankedTask) :=
  if tasks.length = 0 then
    .error (.valueError "tasks list cannot be empty")
  else if method ∉ VALID_METHODS then
    .error (.valueError ("Invalid method '" ++ method ++ "'. Must be one of: weighted, deadline"))
  else
    .ok (assign_ranks (sortDesc (fun r => r.priority_score)
      (scored_tasks today method (effective_weights weights).1
        (effective_weights weights).2.1 (effective_weights weights).2.2 tasks)))

/-! ## Embedding of `src/deepwork/affirmation.py` -/

/-- One catalog entry of the affirmation database. -/
structure Affirmation where
  text : String
  category : String
  energy : String
deriving DecidableEq, Repr

def VALID_MOODS : List String :=
  ["happy", "stressed", "anxious", "tired", "frustrated", "motivated", "neutral"]

def VALID_CATEGORIES : List String :=
  ["motivation", "confidence", "persistence", "self-care", "growth"]

/-- The fixed affirmation database (affirmation.py lines 11–48), in source
order. -/
def AFFIRMATIONS : List Affirmation := [
  ⟨"{name}, small commits still move the project forward.", "motivation", "low"⟩,
  ⟨"Rest is part of the process, {name}.", "motivation", "low"⟩,
  ⟨"{name}, every bug fixed is progress.", "motivation", "low"⟩,
  ⟨"{name}, you have the skills to solve this.", "motivation", "medium"⟩,
  ⟨"Your code makes a difference, {name}.", "motivation", "medium"⟩,
  ⟨"{name}, you've debugged harder problems than this.", "motivation", "medium"⟩,
  ⟨"{name}, you're on fire! Ship that feature!", "motivation", "high"⟩,
  ⟨"Channel that energy into clean code, {name}!", "motivation", "high"⟩,
  ⟨"{name}, you belong in tech.", "confidence", "low"⟩,
  ⟨"Trust your debugging instincts, {name}.", "confidence", "medium"⟩,
  ⟨"{name}, your unique perspective makes the team stronger.", "confidence", "medium"⟩,
  ⟨"You've got this, {name}!", "confidence", "high"⟩,
  ⟨"{name}, even senior devs Google things.", "persistence", "low"⟩,
  ⟨"The bug will surrender eventually, {name}.", "persistence", "medium"⟩,
  ⟨"{name}, stuck is temporary. Keep digging.", "persistence", "medium"⟩,
  ⟨"Persistence beats talent, {name}. Keep going!", "persistence", "high"⟩,
  ⟨"{name}, it's okay to step away from the screen.", "self-care", "low"⟩,
  ⟨"Your worth isn't measured in commits, {name}.", "self-care", "low"⟩,
  ⟨"{name}, take a break. The code will wait.", "self-care", "medium"⟩,
  ⟨"{name}, every error is a learning opportunity.", "growth", "low"⟩,
  ⟨"You're a better developer than you were yesterday, {name}.", "growth", "medium"⟩,
  ⟨"{name}, embrace the struggle. That's where growth happens.", "growth", "medium"⟩,
  ⟨"Level up, {name}! Challenge accepted!", "growth", "high"⟩]

/-- The fixed mood → preferred-category mapping (affirmation.py lines
51–59). -/
def MOOD_CATEGORY_MAP : List (String × List String) := [
  ("happy", ["motivation", "growth"]),
  ("stressed", ["self-care", "persistence"]),
  ("anxious", ["confidence", "self-care"]),
  ("tired", ["self-care", "motivation"]),
  ("frustrated", ["persistence", "confidence"]),
  ("motivated", ["motivation", "growth"]),
  ("neutral", ["motivation", "confidence"])]

/-- Python `str.lower()` (ASCII model; all catalog/enum strings are
ASCII). -/
def pyLower (s : String) : String := ⟨s.data.map Char.toLower⟩

/-- Python `str.title()` on the character list: an alphabetic character is
uppercased after a non-alphabetic one and lowercased otherwise (ASCII
model). -/
def pyTitleGo (prevAlpha : Bool) : List Char → List Char
  | [] => []
  | c :: cs =>
    (if c.isAlpha then (if prevAlpha then c.toLower else c.toUpper) else c)
      :: pyTitleGo c.isAlpha cs

/-- Python `str.title()`. -/
def pyTitle (s : String) : String := ⟨pyTitleGo false s.data⟩

/-- The energy → tier bucketing (affirmation.py lines 151–156). -/
def energy_category (energy : Int) : String :=
  if energy ≤ 3 then "low"
  else if energy ≤ 7 then "medium"
  else "high"

/-- Preferred-category resolution (affirmation.py lines 159–162): a truthy
explicit category overrides the mood mapping; an unknown mood would fall
back to `["motivation"]`. -/
def preferred_categories (mood : String) (category : Option String) : List String :=
  match category with
  | some c =>
    if c = "" then (MOOD_CATEGORY_MAP.lookup (pyLower mood)).getD ["motivation"] else [c]
  | none => (MOOD_CATEGORY_MAP.lookup (pyLower mood)).getD ["motivation"]

/-- Index in the `energy_order = ["low", "medium", "high"]` list
(affirmation.py line 166). -/
def energyIdx (e : String) : Nat := (["low", "medium", "high"].indexOf e)

/-- The weighting of one catalog record (affirmation.py lines 168–184):
start at 1.0; multiply by 3.0 / 2.0 / 0.5 by category preference, then by
2.0 / 1.5 / 1.0 by energy-tier distance. -/
def affirmation_weight (preferred : List String) (energy_cat : String)
    (a : Affirmation) : ℚ :=
  let w1 : ℚ :=
    if a.category ∈ preferred then
      (if preferred.indexOf a.category = 0 then 3 else 2)
    else 1/2
  let w2 : ℚ :=
    if a.energy = energy_cat then 2
    else if ((energyIdx a.energy : Int) - (energyIdx energy_cat : Int)).natAbs = 1 then 3/2
    else 1
  w1 * w2

/-- The weighted candidate list built by the main loop (affirmation.py
lines 165–184): every catalog record, paired with its weight. -/
def candidate_list (preferred : List String) (energy_cat : String) :
    List (Affirmation × ℚ) :=
  AFFIRMATIONS.map (fun a => (a, affirmation_weight preferred energy_cat a))

/-- The candidate list after the two defensive fallbacks (affirmation.py
lines 186–192): tier-only candidates, then the full catalog, each tried
only when the previous list is empty. -/
def candidates_with_fallback (preferred : List String) (energy_cat : String) :
    List (Affirmation × ℚ) :=
  let c0 := candidate_list preferred energy_cat
  let c1 :=
    if c0.isEmpty then
      (AFFIRMATIONS.filter (fun a => a.energy == energy_cat)).map (fun a => (a, (1 : ℚ)))
    else c0
  if c1.isEmpty then AFFIRMATIONS.map (fun a => (a, (1 : ℚ))) else c1

/-- Modelled from the Python standard library (not part of this
repository): the module-global `random` generator.  Its state is a natural
number below `RAND_MODULUS`; a linear congruential generator stands in for
the Mersenne Twister.  What the embedding relies on is only the stdlib
contract: `random.seed(s)` deterministically replaces the global state as a
function of `s` alone, and each `random.uniform` call advances the global
state and returns a value in the requested interval. -/
def RAND_MODULUS : Nat := 2147483648

/-- One generator step (state advance), standing in for the Mersenne
Twister step performed by `random.uniform`. -/
def lcg_next (s : Nat) : Nat := (1103515245 * s + 12345) % RAND_MODULUS

/-- Modelled from the Python standard library: `random.seed(n)` — the new
global generator state, a function of the seed alone. -/
def py_seed (n : Int) : Nat := (n.natAbs + 1) % RAND_MODULUS

/-- Modelled from the Python standard library: `random.uniform(0, total)` —
the drawn value (in `[0, total]` for `total ≥ 0`) and the advanced global
state. -/
def py_uniform (s : Nat) (total : ℚ) : ℚ × Nat :=
  let s' := lcg_next s
  (total * s' / RAND_MODULUS, s')

/-- The cumulative-weight walk (affirmation.py lines 198–204): the first
candidate whose cumulative weight reaches `r`, starting from an
accumulator `cum`. -/
def select_walk (r : ℚ) (cum : ℚ) : List (Affirmation × ℚ) → Option Affirmation
  | [] => none
  | (a, w) :: rest => if r ≤ cum + w then some a else select_walk r (cum + w) rest

/-- The complete weighted draw (affirmation.py lines 194–204):
`selected = candidates[-1][0]` (an `IndexError` on an empty list, hence
`none` here), possibly replaced by the first candidate whose cumulative
weight reaches `r`. -/
def weighted_select (cands : List (Affirmation × ℚ)) (r : ℚ) : Option Affirmation :=
  match cands.getLast? with
  | none => none
  | some last => some ((select_walk r 0 cands).getD last.1)

/-- The returned dictionary of `get_affirmation`. -/
structure AffirmationResult where
  text : String
  category : String
  mood_alignment : ℚ
deriving DecidableEq, Repr

/-- Embedding of `get_affirmation` (affirmation.py lines 62–221).  The
module-global `random` state `g` is threaded explicitly: the result pairs
the returned dictionary with the global generator state after the call.
Checks the type system cannot discharge are kept in source order: mood
validity, energy range, category validity.  `indexError` models the
`IndexError` that `candidates[-1]` raises on an empty candidate list. -/
def get_affirmation (g : Nat) (name mood : String) (energy : Int)
    (category : Option String) (seed : Option Int) :
    Except PyErr (AffirmationResult × Nat) :=
  if pyLower mood ∉ VALID_MOODS then
    .error (.valueError ("Invalid mood '" ++ mood ++ "'. Must be one of: "
      ++ String.intercalate ", " VALID_MOODS))
  else if energy < 1 ∨ 10 < energy then
    .error (.valueError "energy must be between 1 and 10")
  else if category.any (fun c => !(VALID_CATEGORIES.contains (pyLower c))) then
    .error (.valueError ("Invalid category '" ++ category.getD "" ++ "'. Must be one of: "
      ++ String.intercalate ", " VALID_CATEGORIES))
  else
    let g1 := match seed with
      | some s => py_seed s
      | none => g
    let display_name := if name.trim = "" then "Developer" else pyTitle name.trim
    let energy_cat := energy_category energy
    let preferred := preferred_categories mood category
    let candidates := candidates_with_fallback preferred energy_cat
    let total := (candidates.map Prod.snd).sum
    let ru := py_uniform g1 total
    match weighted_select candidates ru.1 with
    | none => .error (.indexError "list index out of range")
    | some selected =>
      let score : ℚ := 1/2 + (if selected.category ∈ preferred then 3/10 else 0)
        + (if selected.energy = energy_cat then 1/5 else 0)
      .ok ({ text := selected.text.replace "{name}" display_name
             category := selected.category
             mood_alignment := round2 (min score 1) }, ru.2)

/-! ## Embedding of `src/deepwork/pomodoro.py`

The source file holds only the signature and the docstring of
`plan_pomodoro`; the body is absent from the repository.  The definitions
below are modelled from the specification (§4.2) and the docstring. -/

/-- One row of the returned schedule. -/
structure Session where
  session : Nat
  type : String
  duration_minutes : Nat
  start_minute : Nat
  end_minute : Nat
deriving DecidableEq, Repr

def VALID_TECHNIQUES : List String := ["pomodoro", "52-17", "90-20", "custom"]

/-- Modelled from the spec (§4.2): whether the break after the
`workCount`-th work session is a long break — `workCount` is a positive
multiple of `interval`. -/
def break_is_long (workCount interval : Nat) : Bool :=
  workCount != 0 && workCount % interval == 0

/-- Nominal (untruncated) length of the next session. -/
def nominal_len (w sb lb interval workCount : Nat) (nextIsWork : Bool) : Nat :=
  if nextIsWork then w else if break_is_long workCount interval then lb else sb

/-- Type tag of the next session. -/
def sess_type (interval workCount : Nat) (nextIsWork : Bool) : String :=
  if nextIsWork then "work"
  else if break_is_long workCount interval then "long_break"
  else "short_break"

/-- Modelled from the spec (§4.2 generation loop; the body of
`plan_pomodoro` is absent from `src/src/deepwork/pomodoro.py`): alternate
work and break sessions from `clock`, truncating each nominal duration to
the remaining budget, never emitting a zero-length session, stopping when
the budget is consumed.  `fuel` bounds the recursion; every emitted session
consumes at least one minute, so `fuel = total` suffices. -/
def schedule_go (total w sb lb interval : Nat) :
    Nat → Nat → Nat → Bool → Nat → List Session
  | 0, _, _, _, _ => []
  | fuel + 1, clock, workCount, nextIsWork, num =>
    if total ≤ clock then []
    else if min (nominal_len w sb lb interval workCount nextIsWork) (total - clock) = 0 then []
    else
      { session := num
        type := sess_type interval workCount nextIsWork
        duration_minutes := min (nominal_len w sb lb interval workCount nextIsWork) (total - clock)
        start_minute := clock
        end_minute := clock + min (nominal_len w sb lb interval workCount nextIsWork) (total - clock) }
        :: schedule_go total w sb lb interval fuel
            (clock + min (nominal_len w sb lb interval workCount nextIsWork) (total - clock))
            (if nextIsWork then workCount + 1 else workCount) (!nextIsWork) (num + 1)

/-- Modelled from the spec (§4.2): the work / short-break preset of each
technique; `custom` uses the supplied values (validated present and
positive before use). -/
def technique_preset (technique : String) (work_length short_break : Option Int) :
    Int × Int :=
  if technique = "pomodoro" then (25, 5)
  else if technique = "52-17" then (52, 17)
  else if technique = "90-20" then (90, 20)
  else (work_length.getD 25, short_break.getD 5)

/-- Whether a provided optional integer parameter is non-positive. -/
def badOpt (o : Option Int) : Bool :=
  match o with
  | some v => v ≤ 0
  | none => false

/-- Modelled from the spec (§4.2) and the docstring/tests (the body of
`plan_pomodoro` is absent from `src/src/deepwork/pomodoro.py`): validation
of `total_minutes`, `technique`, the required custom parameters, the
positivity of every provided duration and of `long_break_interval`; then
the preset resolution (pomodoro = 25/5, 52-17 = 52/17, 90-20 = 90/20,
custom = supplied values), `long_break` defaulting to `short_break`, and
the generation loop. -/
def plan_pomodoro (total_minutes : Int) (technique : String)
    (work_length short_break long_break : Option Int)
    (long_break_interval : Int) : Except PyErr (List Session) :=
  if total_minutes ≤ 0 then
    .error (.valueError "total_minutes must be positive")
  else if technique ∉ VALID_TECHNIQUES then
    .error (.valueError ("Invalid technique '" ++ technique ++ "'. Must be one of: "
      ++ String.intercalate ", " VALID_TECHNIQUES))
  else if technique = "custom" ∧ (work_length = none ∨ short_break = none) then
    .error (.valueError "custom technique requires work_length and short_break")
  else if badOpt work_length then
    .error (.valueError "work_length must be positive")
  else if badOpt short_break then
    .error (.valueError "short_break must be positive")
  else if badOpt long_break then
    .error (.valueError "long_break must be positive")
  else if long_break_interval < 1 then
    .error (.valueError "long_break_interval must be positive")
  else
    .ok (schedule_go total_minutes.toNat
      (technique_preset technique work_length short_break).1.toNat
      (technique_preset technique work_length short_break).2.toNat
      (long_break.getD (technique_preset technique work_length short_break).2).toNat
      long_break_interval.toNat total_minutes.toNat 0 0 true 1)

/-- The comparison that pins down the unique stable descending arrangement
of an index-tagged list: strictly greater key first, ties by original
index. -/
def StableLex (key : α → ℚ) (a b : Nat × α) : Prop :=
  key b.2 < key a.2 ∨ (key a.2 = key b.2 ∧ a.1 < b.1)

/-- Sum of the session durations of a schedule. -/
def sumDur (l : List Session) : Nat :=
  (l.map Session.duration_minutes).sum

/-- Whether `pat` occurs as a contiguous segment of the second list: used to
state that an error message names the offending field. -/
def hasSeg (pat : List Char) : List Char → Bool
  | [] => pat == []
  | c :: rest => pat.isPrefixOf (c :: rest) || hasSeg pat rest

/-- The full 120-minute pomodoro schedule (spec §8), used as the concrete
instance of the schedule invariants. -/
def pomodoro120 : List Session := [
  { session := 1, type := "work", duration_minutes := 25, start_minute := 0, end_minute := 25 },
  { session := 2, type := "short_break", duration_minutes := 5, start_minute := 25, end_minute := 30 },
  { session := 3, type := "work", duration_minutes := 25, start_minute := 30, end_minute := 55 },
  { session := 4, type := "short_break", duration_minutes := 5, start_minute := 55, end_minute := 60 },
  { session := 5, type := "work", duration_minutes := 25, start_minute := 60, end_minute := 85 },
  { session := 6, type := "short_break", duration_minutes := 5, start_minute := 85, end_minute := 90 },
  { session := 7, type := "work", duration_minutes := 25, start_minute := 90, end_minute := 115 },
  { session := 8, type := "long_break", duration_minutes := 5, start_minute := 115, end_minute := 120 }]


/-! ## Helper lemmas -/

variable {α β : Type}

theorem insertDesc_perm (key : α → ℚ) (x : α) (l : List α) :
    List.Perm (insertDesc key x l) (x :: l) := by
  induction l with
  | nil => simp [insertDesc]
  | cons y ys ih =>
    simp only [insertDesc]
    split
    · exact List.Perm.refl _
    · exact ((ih).cons y).trans (List.Perm.swap x y ys)

theorem sortDesc_perm (key : α → ℚ) (l : List α) :
    List.Perm (sortDesc key l) l := by
  induction l with
  | nil => simp [sortDesc]
  | cons x xs ih =>
    exact (insertDesc_perm key x (sortDesc key xs)).trans (ih.cons x)

theorem mem_insertDesc {key : α → ℚ} {x z : α} {l : List α} :
    z ∈ insertDesc key x l ↔ z = x ∨ z ∈ l := by
  have h : z ∈ insertDesc key x l ↔ z ∈ x :: l := (insertDesc_perm key x l).mem_iff
  simpa using h

theorem insertDesc_pairwise (key : α → ℚ) (x : α) (l : List α)
    (h : l.Pairwise (fun a b => key b ≤ key a)) :
    (insertDesc key x l).Pairwise (fun a b => key b ≤ key a) := by
  induction l with
  | nil => simp [insertDesc]
  | cons y ys ih =>
    simp only [insertDesc]
    rcases List.pairwise_cons.mp h with ⟨hy, hys⟩
    split
    · rename_i hle
      refine List.pairwise_cons.mpr ⟨?_, h⟩
      intro z hz
      rcases List.mem_cons.mp hz with rfl | hz
      · exact hle
      · exact le_trans (hy z hz) hle
    · rename_i hgt
      push_neg at hgt
      refine List.pairwise_cons.mpr ⟨?_, ih hys⟩
      intro z hz
      rcases mem_insertDesc.mp hz with rfl | hz
      · exact le_of_lt hgt
      · exact hy z hz

theorem sortDesc_pairwise (key : α → ℚ) (l : List α) :
    (sortDesc key l).Pairwise (fun a b => key b ≤ key a) := by
  induction l with
  | nil => simp [sortDesc]
  | cons x xs ih => exact insertDesc_pairwise key x _ ih

/-- `sortDesc` commutes with mapping away an index tag, when the key only
looks at the mapped part. -/
theorem map_insertDesc (key : α → ℚ) (f : β → α) (x : β) (l : List β) :
    (insertDesc (fun b => key (f b)) x l).map f = insertDesc key (f x) (l.map f) := by
  induction l with
  | nil => simp [insertDesc]
  | cons y ys ih =>
    simp only [insertDesc, List.map_cons]
    split
    · simp
    · simp [List.map_cons, ih]

theorem map_sortDesc (key : α → ℚ) (f : β → α) (l : List β) :
    (sortDesc (fun b => key (f b)) l).map f = sortDesc key (l.map f) := by
  induction l with
  | nil => simp [sortDesc]
  | cons x xs ih =>
    simp only [sortDesc, map_insertDesc, ih]

theorem insertDesc_pairwise_stableLex (key : α → ℚ) (x : Nat × α) (l : List (Nat × α))
    (h : l.Pairwise (StableLex key)) (hidx : ∀ q ∈ l, x.1 < q.1) :
    (insertDesc (fun p => key p.2) x l).Pairwise (StableLex key) := by
  induction l with
  | nil => simp [insertDesc]
  | cons y ys ih =>
    simp only [insertDesc]
    rcases List.pairwise_cons.mp h with ⟨hy, hys⟩
    split
    · rename_i hle
      refine List.pairwise_cons.mpr ⟨?_, h⟩
      intro z hz
      rcases List.mem_cons.mp hz with rfl | hz
      · rcases lt_or_eq_of_le hle with hlt | heq
        · exact Or.inl hlt
        · exact Or.inr ⟨heq.symm, hidx z (by simp)⟩
      · rcases hy z hz with hlt | ⟨heq, _⟩
        · exact Or.inl (lt_of_lt_of_le hlt hle)
        · rcases lt_or_eq_of_le hle with hlt | heq2
          · exact Or.inl (heq ▸ hlt)
          · exact Or.inr ⟨(heq2.symm.trans heq), hidx z (by simp [hz])⟩
    · rename_i hgt
      push_neg at hgt
      refine List.pairwise_cons.mpr ⟨?_, ih hys (fun q hq => hidx q (by simp [hq]))⟩
      intro z hz
      rcases mem_insertDesc.mp hz with rfl | hz
      · exact Or.inl hgt
      · exact hy z hz

theorem sortDesc_pairwise_stableLex (key : α → ℚ) (l : List (Nat × α))
    (h : l.Pairwise (fun a b => a.1 < b.1)) :
    (sortDesc (fun p => key p.2) l).Pairwise (StableLex key) := by
  induction l with
  | nil => simp [sortDesc]
  | cons x xs ih =>
    rcases List.pairwise_cons.mp h with ⟨hx, hxs⟩
    refine insertDesc_pairwise_stableLex key x _ (ih hxs) ?_
    intro q hq
    exact hx q ((sortDesc_perm _ xs).mem_iff.mp hq)

theorem le_of_mem_enumFrom : ∀ (n : Nat) (l : List α) (q : Nat × α), q ∈ l.enumFrom n → n ≤ q.1
  | n, [], q, h => by simp [List.enumFrom] at h
  | n, x :: xs, q, h => by
    simp only [List.enumFrom, List.mem_cons] at h
    rcases h with rfl | h
    · exact Nat.le_refl n
    · exact Nat.le_of_lt (Nat.lt_of_lt_of_le (Nat.lt_succ_self n) (le_of_mem_enumFrom (n+1) xs q h))

theorem enumFrom_pairwise_lt (n : Nat) (l : List α) :
    (l.enumFrom n).Pairwise (fun a b => a.1 < b.1) := by
  induction l generalizing n with
  | nil => simp [List.enumFrom]
  | cons x xs ih =>
    simp only [List.enumFrom]
    refine List.pairwise_cons.mpr ⟨?_, ih (n + 1)⟩
    intro q hq
    exact Nat.lt_of_lt_of_le (Nat.lt_succ_self n) (le_of_mem_enumFrom (n+1) xs q hq)

theorem enum_pairwise_lt (l : List α) :
    l.enum.Pairwise (fun a b => a.1 < b.1) := enumFrom_pairwise_lt 0 l

theorem nominal_len_pos (w sb lb iv : Nat) (hw : 0 < w) (hsb : 0 < sb) (hlb : 0 < lb)
    (wc : Nat) (nw : Bool) : 0 < nominal_len w sb lb iv wc nw := by
  unfold nominal_len
  split
  · exact hw
  · split
    · exact hlb
    · exact hsb

theorem schedule_go_sumDur (total w sb lb iv : Nat) (hw : 0 < w) (hsb : 0 < sb)
    (hlb : 0 < lb) :
    ∀ (fuel clock wc : Nat) (nw : Bool) (num : Nat), total - clock ≤ fuel →
      sumDur (schedule_go total w sb lb iv fuel clock wc nw num) = total - clock := by
  intro fuel
  induction fuel with
  | zero =>
    intro clock wc nw num hfuel
    simp only [schedule_go, sumDur, List.map_nil, List.sum_nil]
    omega
  | succ fuel ih =>
    intro clock wc nw num hfuel
    rw [schedule_go]
    by_cases hc : total ≤ clock
    · rw [if_pos hc]
      simp only [sumDur, List.map_nil, List.sum_nil]
      omega
    · rw [if_neg hc]
      have hnom := nominal_len_pos w sb lb iv hw hsb hlb wc nw
      have hdur : min (nominal_len w sb lb iv wc nw) (total - clock) ≠ 0 := by omega
      rw [if_neg hdur]
      simp only [sumDur, List.map_cons, List.sum_cons]
      rw [show (List.map Session.duration_minutes (schedule_go total w sb lb iv fuel
        (clock + min (nominal_len w sb lb iv wc nw) (total - clock))
        (if nw = true then wc + 1 else wc) (!nw) (num + 1))).sum
        = sumDur (schedule_go total w sb lb iv fuel
        (clock + min (nominal_len w sb lb iv wc nw) (total - clock))
        (if nw = true then wc + 1 else wc) (!nw) (num + 1)) from rfl]
      rw [ih]
      · omega
      · omega

theorem schedule_go_ends (total w sb lb iv : Nat) :
    ∀ (fuel clock wc : Nat) (nw : Bool) (num : Nat),
      ∀ s ∈ schedule_go total w sb lb iv fuel clock wc nw num,
        s.end_minute = s.start_minute + s.duration_minutes := by
  intro fuel
  induction fuel with
  | zero => intro clock wc nw num s hs; simp [schedule_go] at hs
  | succ fuel ih =>
    intro clock wc nw num s hs
    rw [schedule_go] at hs
    by_cases hc : total ≤ clock
    · rw [if_pos hc] at hs; simp at hs
    · rw [if_neg hc] at hs
      by_cases hd : min (nominal_len w sb lb iv wc nw) (total - clock) = 0
      · rw [if_pos hd] at hs; simp at hs
      · rw [if_neg hd] at hs
        rcases List.mem_cons.mp hs with rfl | hs
        · rfl
        · exact ih _ _ _ _ s hs

theorem schedule_go_chain (total w sb lb iv : Nat) :
    ∀ (fuel clock wc : Nat) (nw : Bool) (num : Nat),
      (schedule_go total w sb lb iv fuel clock wc nw num).Chain'
          (fun a b => a.end_minute = b.start_minute) ∧
      (∀ s, (schedule_go total w sb lb iv fuel clock wc nw num).head? = some s →
        s.start_minute = clock) := by
  intro fuel
  induction fuel with
  | zero => intro clock wc nw num; simp [schedule_go]
  | succ fuel ih =>
    intro clock wc nw num
    rw [schedule_go]
    by_cases hc : total ≤ clock
    · rw [if_pos hc]; simp
    · rw [if_neg hc]
      by_cases hd : min (nominal_len w sb lb iv wc nw) (total - clock) = 0
      · rw [if_pos hd]; simp
      · rw [if_neg hd]
        constructor
        · refine List.chain'_cons'.mpr ⟨?_, (ih _ _ _ _).1⟩
          intro y hy
          have := (ih (clock + min (nominal_len w sb lb iv wc nw) (total - clock))
            (if nw = true then wc + 1 else wc) (!nw) (num + 1)).2 y hy
          simpa using this.symm
        · intro s hs
          simp only [List.head?_cons, Option.some_inj] at hs
          subst hs
          rfl

theorem last_end_of_chain :
    ∀ (l : List Session) (c : Nat),
      l.Chain' (fun a b => a.end_minute = b.start_minute) →
      (∀ s ∈ l, s.end_minute = s.start_minute + s.duration_minutes) →
      (∀ s, l.head? = some s → s.start_minute = c) →
      l ≠ [] →
      ∃ s, l.getLast? = some s ∧ s.end_minute = c + sumDur l
  | [], _, _, _, _, hne => absurd rfl hne
  | [x], c, _, hends, hhead, _ => by
    refine ⟨x, rfl, ?_⟩
    have h1 := hends x (by simp)
    have h2 := hhead x rfl
    simp [sumDur, h1, h2]
  | x :: y :: tl, c, hchain, hends, hhead, _ => by
    have hx : x.end_minute = y.start_minute := (List.chain'_cons.mp hchain).1
    have hxe : x.end_minute = x.start_minute + x.duration_minutes := hends x (by simp)
    have hxs : x.start_minute = c := hhead x rfl
    obtain ⟨s, hs, he⟩ := last_end_of_chain (y :: tl) (c + x.duration_minutes)
      (List.chain'_cons.mp hchain).2
      (fun s hs => hends s (by simp [hs]))
      (fun s hs => by
        simp only [List.head?_cons, Option.some_inj] at hs
        subst hs
        omega)
      (by simp)
    refine ⟨s, by simpa [List.getLast?_cons_cons] using hs, ?_⟩
    have : sumDur (x :: y :: tl) = x.duration_minutes + sumDur (y :: tl) := by
      simp [sumDur]
    omega

/-- Top-level invariants of a generated schedule at the generator level. -/
theorem schedule_invariants (total w sb lb iv : Nat) (hw : 0 < w) (hsb : 0 < sb)
    (hlb : 0 < lb) (htot : 0 < total) :
    schedule_go total w sb lb iv total 0 0 true 1 ≠ [] ∧
    (∀ s, (schedule_go total w sb lb iv total 0 0 true 1).head? = some s →
      s.start_minute = 0) ∧
    (schedule_go total w sb lb iv total 0 0 true 1).Chain'
      (fun a b => a.end_minute = b.start_minute) ∧
    (∀ s ∈ schedule_go total w sb lb iv total 0 0 true 1,
      s.end_minute = s.start_minute + s.duration_minutes) ∧
    sumDur (schedule_go total w sb lb iv total 0 0 true 1) = total ∧
    (∃ s, (schedule_go total w sb lb iv total 0 0 true 1).getLast? = some s ∧
      s.end_minute = total) := by
  have hsum := schedule_go_sumDur total w sb lb iv hw hsb hlb total 0 0 true 1 (by omega)
  have hne : schedule_go total w sb lb iv total 0 0 true 1 ≠ [] := by
    intro h
    rw [h] at hsum
    simp [sumDur] at hsum
    omega
  have hchain := schedule_go_chain total w sb lb iv total 0 0 true 1
  have hends := schedule_go_ends total w sb lb iv total 0 0 true 1
  obtain ⟨s, hs, he⟩ := last_end_of_chain _ 0 hchain.1 hends hchain.2 hne
  refine ⟨hne, hchain.2, hchain.1, hends, by omega, s, hs, by omega⟩

theorem getD_pos (o : Option Int) (d : Int) (hbo : ¬(badOpt o = true)) (hd : 0 < d) :
    0 < o.getD d := by
  cases o with
  | none => simpa using hd
  | some v =>
    simp only [badOpt, decide_eq_true_eq] at hbo
    push_neg at hbo
    simpa using hbo

theorem technique_preset_pos (technique : String) (wl sbr : Option Int)
    (h4 : ¬(badOpt wl = true)) (h5 : ¬(badOpt sbr = true)) :
    0 < (technique_preset technique wl sbr).1 ∧ 0 < (technique_preset technique wl sbr).2 := by
  unfold technique_preset
  split_ifs with t1 t2 t3
  · exact ⟨by norm_num, by norm_num⟩
  · exact ⟨by norm_num, by norm_num⟩
  · exact ⟨by norm_num, by norm_num⟩
  · exact ⟨getD_pos wl 25 h4 (by norm_num), getD_pos sbr 5 h5 (by norm_num)⟩



variable {α β : Type}

theorem length_assign_ranks (l : List RankedTask) :
    (assign_ranks l).length = l.length := by
  simp [assign_ranks]

theorem length_scored_tasks (today : Int) (method : String) (wi we wd : ℚ)
    (tasks : List Task) :
    (scored_tasks today method wi we wd tasks).length = tasks.length := by
  unfold scored_tasks
  split <;> simp

theorem enumFrom_map_add_one (n : Nat) (l : List α) :
    (l.enumFrom n).map (fun p => p.1 + 1) = List.range' (n + 1) l.length := by
  induction l generalizing n with
  | nil => simp [List.enumFrom]
  | cons x xs ih =>
    simp only [List.enumFrom, List.map_cons, List.length_cons, List.range'_succ]
    exact congrArg _ (ih (n + 1))

theorem assign_ranks_map_rank (l : List RankedTask) :
    (assign_ranks l).map RankedTask.rank = List.range' 1 l.length := by
  unfold assign_ranks
  rw [List.map_map]
  have : (RankedTask.rank ∘ fun p : Nat × RankedTask => { p.2 with rank := p.1 + 1 })
      = fun p : Nat × RankedTask => p.1 + 1 := rfl
  rw [this]
  simpa using enumFrom_map_add_one 0 l

theorem snd_mem_of_mem_enumFrom : ∀ (n : Nat) (l : List α) (q : Nat × α),
    q ∈ l.enumFrom n → q.2 ∈ l
  | n, [], q, h => by simp [List.enumFrom] at h
  | n, x :: xs, q, h => by
    simp only [List.enumFrom, List.mem_cons] at h
    rcases h with rfl | h
    · simp
    · exact List.mem_cons_of_mem x (snd_mem_of_mem_enumFrom (n + 1) xs q h)

theorem pairwise_enumFrom_lift (R : α → α → Prop) :
    ∀ (l : List α) (n : Nat), l.Pairwise R →
      (l.enumFrom n).Pairwise (fun a b => R a.2 b.2) := by
  intro l
  induction l with
  | nil => intro n h; simp [List.enumFrom]
  | cons x xs ih =>
    intro n h
    rcases List.pairwise_cons.mp h with ⟨hx, hxs⟩
    simp only [List.enumFrom]
    refine List.pairwise_cons.mpr ⟨?_, ih (n + 1) hxs⟩
    intro q hq
    exact hx q.2 (snd_mem_of_mem_enumFrom (n + 1) xs q hq)

theorem assign_ranks_pairwise_score (l : List RankedTask)
    (h : l.Pairwise (fun a b => b.priority_score ≤ a.priority_score)) :
    (assign_ranks l).Pairwise (fun a b => b.priority_score ≤ a.priority_score) := by
  unfold assign_ranks
  rw [List.pairwise_map]
  exact (pairwise_enumFrom_lift _ l 0 h).imp (fun hab => hab)

theorem affirmation_weight_ge_half (preferred : List String) (ecat : String)
    (a : Affirmation) : 1/2 ≤ affirmation_weight preferred ecat a := by
  simp only [affirmation_weight]
  split_ifs <;> norm_num

theorem sum_pos_of_all_ge_half :
    ∀ l : List ℚ, (∀ x ∈ l, 1/2 ≤ x) → l ≠ [] → 0 < l.sum := by
  intro l hall hne
  cases l with
  | nil => exact absurd rfl hne
  | cons x xs =>
    have hx : (1:ℚ)/2 ≤ x := hall x (by simp)
    have hxs : 0 ≤ xs.sum := List.sum_nonneg (fun y hy => le_trans (by norm_num)
      (hall y (List.mem_cons_of_mem x hy)))
    simp only [List.sum_cons]
    linarith

theorem candidate_list_ne_nil (preferred : List String) (ecat : String) :
    candidate_list preferred ecat ≠ [] := by
  simp [candidate_list, AFFIRMATIONS]

/-! ## The claims -/

set_option maxHeartbeats 1600000 in
/-- C1: for every valid call, the returned schedule is non-empty, starts at
minute 0, is contiguous (each session's end is the next session's start),
every session's end equals its start plus its duration, the durations sum to
`total_minutes`, and the last session ends exactly at `total_minutes`.
(`plan_pomodoro` is modelled from the spec: its body is absent from the
repository.) -/
theorem plan_pomodoro_ok_invariants (total_minutes : Int) (technique : String)
    (work_length short_break long_break : Option Int) (long_break_interval : Int)
    (out : List Session)
    (h : plan_pomodoro total_minutes technique work_length short_break long_break
      long_break_interval = .ok out) :
    out ≠ [] ∧
    (∀ s, out.head? = some s → s.start_minute = 0) ∧
    out.Chain' (fun a b => a.end_minute = b.start_minute) ∧
    (∀ s ∈ out, s.end_minute = s.start_minute + s.duration_minutes) ∧
    sumDur out = total_minutes.toNat ∧
    (∃ s, out.getLast? = some s ∧ s.end_minute = total_minutes.toNat) := by
  unfold plan_pomodoro at h
  split_ifs at h with h1 h2 h3 h4 h5 h6 h7
  all_goals cases h
  obtain ⟨hw, hsb⟩ := technique_preset_pos technique work_length short_break h4 h5
  have hlb : 0 < long_break.getD (technique_preset technique work_length short_break).2 :=
    getD_pos long_break _ h6 hsb
  exact schedule_invariants _ _ _ _ _ (by omega) (by omega) (by omega) (by omega)

/-- C1 witness: the invariants hold of the concrete 120-minute pomodoro
schedule. -/
theorem plan_pomodoro_ok_invariants_witness :
    pomodoro120 ≠ [] ∧
    (∀ s, pomodoro120.head? = some s → s.start_minute = 0) ∧
    pomodoro120.Chain' (fun a b => a.end_minute = b.start_minute) ∧
    (∀ s ∈ pomodoro120, s.end_minute = s.start_minute + s.duration_minutes) ∧
    sumDur pomodoro120 = (120 : Int).toNat ∧
    (∃ s, pomodoro120.getLast? = some s ∧ s.end_minute = (120 : Int).toNat) :=
  plan_pomodoro_ok_invariants 120 "pomodoro" none none none 4 pomodoro120 (by decide)

/-- C2: for every non-empty task list and valid method, `prioritize_tasks`
returns a list of the input's length, whose ranks are exactly `1..N` in
order, sorted descending by `priority_score`; and the arrangement is the
stable one — some index-tagged permutation of the scored rows is sorted by
(score descending, original index ascending) and yields the output. -/
theorem prioritize_tasks_rank_spec (today : Int) (tasks : List Task) (method : String)
    (weights : Option Weights) (h1 : tasks ≠ []) (h2 : method ∈ VALID_METHODS) :
    ∃ out, prioritize_tasks today tasks method weights = .ok out ∧
      out.length = tasks.length ∧
      out.map RankedTask.rank = List.range' 1 tasks.length ∧
      out.Pairwise (fun a b => b.priority_score ≤ a.priority_score) ∧
      ∃ tagged : List (Nat × RankedTask),
        tagged.Perm ((scored_tasks today method (effective_weights weights).1
          (effective_weights weights).2.1 (effective_weights weights).2.2 tasks).enum) ∧
        tagged.Pairwise (StableLex RankedTask.priority_score) ∧
        out = assign_ranks (tagged.map Prod.snd) := by
  have hlen : tasks.length ≠ 0 := fun h => h1 (List.length_eq_zero.mp h)
  unfold prioritize_tasks
  rw [if_neg hlen, if_neg (by simpa using h2)]
  set scored := scored_tasks today method (effective_weights weights).1
    (effective_weights weights).2.1 (effective_weights weights).2.2 tasks with hscored
  set key : RankedTask → ℚ := RankedTask.priority_score with hkey
  refine ⟨_, rfl, ?_, ?_, ?_, ?_⟩
  · rw [length_assign_ranks, (sortDesc_perm key scored).length_eq, hscored,
      length_scored_tasks]
  · rw [assign_ranks_map_rank, (sortDesc_perm key scored).length_eq, hscored,
      length_scored_tasks]
  · exact assign_ranks_pairwise_score _ (sortDesc_pairwise key scored)
  · refine ⟨sortDesc (fun p => key p.2) scored.enum, sortDesc_perm _ _, ?_, ?_⟩
    · exact sortDesc_pairwise_stableLex key scored.enum (enum_pairwise_lt scored)
    · rw [map_sortDesc key Prod.snd scored.enum, List.enum_map_snd]

/-- C2 witness: the ranking properties at a concrete two-task list. -/
theorem prioritize_tasks_rank_spec_witness :
    ∃ out, prioritize_tasks 0 [{ name := "a" }, { name := "b" }] "weighted" none = .ok out ∧
      out.length = 2 ∧
      out.map RankedTask.rank = List.range' 1 2 ∧
      out.Pairwise (fun a b => b.priority_score ≤ a.priority_score) ∧
      ∃ tagged : List (Nat × RankedTask),
        tagged.Perm ((scored_tasks 0 "weighted" (effective_weights none).1
          (effective_weights none).2.1 (effective_weights none).2.2
          [{ name := "a" }, { name := "b" }]).enum) ∧
        tagged.Pairwise (StableLex RankedTask.priority_score) ∧
        out = assign_ranks (tagged.map Prod.snd) :=
  prioritize_tasks_rank_spec 0 [{ name := "a" }, { name := "b" }] "weighted" none
    (by decide) (by decide)

/-- C3: the seeded call does not use an isolated generator — it reseeds the
module-global `random` state.  First conjunct: the result and post-call
global state are a function of the seed alone (any prior global state is
discarded).  Second conjunct: the global state after the call differs from
the state before it.  This contradicts the claim (and the docstring's
"uses a local random instance to avoid affecting global state"). -/
theorem get_affirmation_seeded_clobbers_global_state :
    (∀ g g' : Nat, get_affirmation g "Alice" "happy" 5 none (some 42)
       = get_affirmation g' "Alice" "happy" 5 none (some 42)) ∧
    (∃ res, get_affirmation 7 "Alice" "happy" 5 none (some 42) = .ok res ∧ res.2 ≠ 7) := by
  refine ⟨fun g g' => rfl, ⟨_, rfl, by decide⟩⟩

/-- C4: for every task under the weighted method (default weights
0.5/0.3/0.2, defaults `importance = effort = 3`), the pipeline's score is
`round2(importance*0.5 + (6 - effort)*0.3 + deadlineScore*0.2)`, where
`deadlineScore` buckets a parseable deadline by `days_left`
(5 / 4 / 3 / 2 / 1) and is the default 3 for an absent, empty or
unparseable deadline; the spec's "Fix bug" example yields 4.3, and a
deadline due tomorrow yields deadlineScore 5 hence 4.7. -/
theorem prioritize_tasks_weighted_formula (today : Int) (t : Task) :
    prioritize_tasks today [t] "weighted" none
      = .ok [{ task := t,
               priority_score :=
                 round2 (((t.importance.getD 3 : Int) : ℚ) * (1/2)
                   + ((6 : ℚ) - ((t.effort.getD 3 : Int) : ℚ)) * (3/10)
                   + deadline_score today t * (1/5)),
               rank := 1 }] ∧
    (∀ s ymd, t.deadline = some s → s ≠ "" → parseYMD s.data = some ymd →
      deadline_score today t
        = (if daysLeft today ymd ≤ 1 then (5 : ℚ)
           else if daysLeft today ymd ≤ 3 then 4
           else if daysLeft today ymd ≤ 7 then 3
           else if daysLeft today ymd ≤ 14 then 2
           else 1)) ∧
    ((t.deadline = none ∨ t.deadline = some "" ∨
        (∀ s, t.deadline = some s → parseYMD s.data = none)) →
      deadline_score today t = 3) ∧
    prioritize_tasks today [{ name := "Fix bug", importance := some 5, effort := some 2 }]
        "weighted" none
      = .ok [{ task := { name := "Fix bug", importance := some 5, effort := some 2 },
               priority_score := 43/10, rank := 1 }] ∧
    prioritize_tasks (daysFromCivil (2024, 1, 1))
        [{ name := "ship", deadline := some "2024-01-02",
           importance := some 5, effort := some 2 }] "weighted" none
      = .ok [{ task := { name := "ship", deadline := some "2024-01-02",
                         importance := some 5, effort := some 2 },
               priority_score := 47/10, rank := 1 }] := by
  refine ⟨rfl, ?_, ?_, ?_, ?_⟩
  · intro s ymd hs hne hp
    simp [deadline_score, hs, hne, hp]
  · intro h
    rcases h with h | h | h
    · simp [deadline_score, h]
    · simp [deadline_score, h]
    · cases hd : t.deadline with
      | none => simp [deadline_score, hd]
      | some s =>
        by_cases hs : s = ""
        · simp [deadline_score, hd, hs]
        · simp [deadline_score, hd, hs, h s hd]
  · have h : prioritize_tasks today
        [{ name := "Fix bug", importance := some 5, effort := some 2 }] "weighted" none
        = .ok [{ task := { name := "Fix bug", importance := some 5, effort := some 2 },
                 priority_score := weighted_score (1/2) (3/10) (1/5) today
                   { name := "Fix bug", importance := some 5, effort := some 2 },
                 rank := 1 }] := rfl
    rw [h]
    have h2 : weighted_score (1/2) (3/10) (1/5) today
        { name := "Fix bug", importance := some 5, effort := some 2 } = 43/10 := by
      unfold weighted_score deadline_score
      norm_num [round2, roundHalfEven]
    rw [h2]
  · have h : prioritize_tasks (daysFromCivil (2024, 1, 1))
        [{ name := "ship", deadline := some "2024-01-02",
           importance := some 5, effort := some 2 }] "weighted" none
        = .ok [{ task := { name := "ship", deadline := some "2024-01-02",
                           importance := some 5, effort := some 2 },
                 priority_score := weighted_score (1/2) (3/10) (1/5) (daysFromCivil (2024, 1, 1))
                   { name := "ship", deadline := some "2024-01-02",
                     importance := some 5, effort := some 2 },
                 rank := 1 }] := rfl
    rw [h]
    have hds : deadline_score (daysFromCivil (2024, 1, 1))
        { name := "ship", deadline := some "2024-01-02",
          importance := some 5, effort := some 2 } = 5 := by decide
    have h2 : weighted_score (1/2) (3/10) (1/5) (daysFromCivil (2024, 1, 1))
        { name := "ship", deadline := some "2024-01-02",
          importance := some 5, effort := some 2 } = 47/10 := by
      unfold weighted_score
      rw [hds]
      norm_num [round2, roundHalfEven]
    rw [h2]

/-- C4 witness: the deadline-score buckets exercised at a deadline due
tomorrow and at a task without a deadline. -/
theorem prioritize_tasks_weighted_formula_witness :
    deadline_score (daysFromCivil (2024, 1, 1))
        { name := "ship", deadline := some "2024-01-02",
          importance := some 5, effort := some 2 }
      = (if daysLeft (daysFromCivil (2024, 1, 1)) (2024, 1, 2) ≤ 1 then (5 : ℚ)
         else if daysLeft (daysFromCivil (2024, 1, 1)) (2024, 1, 2) ≤ 3 then 4
         else if daysLeft (daysFromCivil (2024, 1, 1)) (2024, 1, 2) ≤ 7 then 3
         else if daysLeft (daysFromCivil (2024, 1, 1)) (2024, 1, 2) ≤ 14 then 2
         else 1) ∧
    deadline_score 0 { name := "a" } = 3 :=
  ⟨(prioritize_tasks_weighted_formula (daysFromCivil (2024, 1, 1))
      { name := "ship", deadline := some "2024-01-02",
        importance := some 5, effort := some 2 }).2.1 "2024-01-02" (2024, 1, 2)
      rfl (by decide) (by decide),
   (prioritize_tasks_weighted_formula 0 { name := "a" }).2.2.1 (Or.inl rfl)⟩

/-- C5: each documented invalid input raises the documented error kind with
a message naming the offending field, and the operation returns no result
(the `technique` case goes through the spec-modelled `plan_pomodoro`). -/
theorem invalid_inputs_raise (g : Nat) (today : Int) (t : Task) :
    (∃ m, get_affirmation g "Alice" "invalid" 5 none none = .error (.valueError m) ∧
      hasSeg "mood".data m.data = true) ∧
    (∃ m, get_affirmation g "Alice" "happy" 0 none none = .error (.valueError m) ∧
      hasSeg "energy".data m.data = true) ∧
    (∃ m, plan_pomodoro 60 "bogus" none none none 4 = .error (.valueError m) ∧
      hasSeg "technique".data m.data = true) ∧
    (∃ m, prioritize_tasks today [] "weighted" none = .error (.valueError m) ∧
      hasSeg "tasks".data m.data = true) ∧
    (∃ m, prioritize_tasks today [t] "foo" none = .error (.valueError m) ∧
      hasSeg "method".data m.data = true) := by
  refine ⟨⟨_, rfl, by decide⟩, ⟨_, rfl, by decide⟩, ⟨_, rfl, by decide⟩,
    ⟨_, rfl, by decide⟩,
    ⟨"Invalid method 'foo'. Must be one of: weighted, deadline", ?_, by decide⟩⟩
  unfold prioritize_tasks
  rw [if_neg (by simp), if_pos (by decide)]
  rfl

/-- C6: the energy tier resolution maps 1–3 to low, 4–7 to medium and 8–10
to high. -/
theorem energy_category_tiers (e : Int) :
    ((1 ≤ e ∧ e ≤ 3) → energy_category e = "low") ∧
    ((4 ≤ e ∧ e ≤ 7) → energy_category e = "medium") ∧
    ((8 ≤ e ∧ e ≤ 10) → energy_category e = "high") := by
  unfold energy_category
  refine ⟨fun h => ?_, fun h => ?_, fun h => ?_⟩
  · rw [if_pos (by omega)]
  · rw [if_neg (by omega), if_pos (by omega)]
  · rw [if_neg (by omega), if_neg (by omega)]

theorem energy_category_tiers_witness :
    energy_category 3 = "low" ∧ energy_category 4 = "medium" ∧
    energy_category 7 = "medium" ∧ energy_category 8 = "high" :=
  ⟨(energy_category_tiers 3).1 (by omega), (energy_category_tiers 4).2.1 (by omega),
   (energy_category_tiers 7).2.1 (by omega), (energy_category_tiers 8).2.2 (by omega)⟩

/-- C7: `plan_pomodoro(15, "pomodoro")` returns exactly one truncated work
session `0–15`; in general, whenever `total` is smaller than the first work
session's nominal length, the generation loop emits exactly one truncated
work session and stops, with no break after it.  (Modelled from the spec:
the body of `plan_pomodoro` is absent from the repository.) -/
theorem plan_pomodoro_truncation :
    plan_pomodoro 15 "pomodoro" none none none 4
      = .ok [{ session := 1, type := "work", duration_minutes := 15,
               start_minute := 0, end_minute := 15 }] ∧
    ∀ (total w sb lb iv : Nat), 0 < total → total < w →
      schedule_go total w sb lb iv total 0 0 true 1
        = [{ session := 1, type := "work", duration_minutes := total,
             start_minute := 0, end_minute := total }] := by
  refine ⟨by decide, ?_⟩
  intro total w sb lb iv htot hw
  obtain ⟨n, rfl⟩ : ∃ n, total = n + 1 := ⟨total - 1, by omega⟩
  have htail : ∀ (fuel wc num : Nat) (nw : Bool),
      schedule_go (n + 1) w sb lb iv fuel (n + 1) wc nw num = [] := by
    intro fuel wc num nw
    cases fuel with
    | zero => rfl
    | succ m => rw [schedule_go, if_pos (le_refl (n + 1))]
  rw [schedule_go]
  rw [if_neg (by omega)]
  have hnom : nominal_len w sb lb iv 0 true = w := rfl
  have hmin : min (nominal_len w sb lb iv 0 true) (n + 1 - 0) = n + 1 := by
    rw [hnom]; omega
  rw [hmin]
  rw [if_neg (Nat.succ_ne_zero n)]
  simp only [Nat.zero_add]
  rw [htail]
  rfl

/-- C7 witness: the general truncation statement applied at the 15-minute
pomodoro instance. -/
theorem plan_pomodoro_truncation_witness :
    schedule_go 15 25 5 5 4 15 0 0 true 1
      = [{ session := 1, type := "work", duration_minutes := 15,
           start_minute := 0, end_minute := 15 }] :=
  plan_pomodoro_truncation.2 15 25 5 5 4 (by decide) (by decide)

/-- C8: a present but unparseable deadline string is not an error: the
weighted method falls back to the default deadline score 3, the deadline
method scores 0, both exactly as if the deadline were absent, and both
pipeline calls succeed. -/
theorem unparseable_deadline_degrades (today : Int) (t : Task) (s : String)
    (hd : t.deadline = some s) (hp : parseYMD s.data = none) :
    deadline_score today t = 3 ∧
    (deadline_method_score today t).1 = 0 ∧
    (∀ wi we wd : ℚ, weighted_score wi we wd today t
       = weighted_score wi we wd today { t with deadline := none }) ∧
    (deadline_method_score today t).1
       = (deadline_method_score today { t with deadline := none }).1 ∧
    (∃ o, prioritize_tasks today [t] "weighted" none = .ok o) ∧
    (∃ o, prioritize_tasks today [t] "deadline" none = .ok o) := by
  have h3 : deadline_score today t = 3 := by
    by_cases hs : s = ""
    · simp [deadline_score, hd, hs]
    · simp [deadline_score, hd, hs, hp]
  have h0 : (deadline_method_score today t).1 = 0 := by
    by_cases hs : s = ""
    · simp [deadline_method_score, hd, hs]
    · simp [deadline_method_score, hd, hs, hp]
  refine ⟨h3, h0, ?_, ?_, ?_, ?_⟩
  · intro wi we wd
    unfold weighted_score
    rw [h3]
    rfl
  · rw [h0]
    rfl
  · refine ⟨assign_ranks (sortDesc (fun r => r.priority_score)
      (scored_tasks today "weighted" (effective_weights none).1
        (effective_weights none).2.1 (effective_weights none).2.2 [t])), ?_⟩
    unfold prioritize_tasks
    rw [if_neg (by simp), if_neg (by decide)]
  · refine ⟨assign_ranks (sortDesc (fun r => r.priority_score)
      (scored_tasks today "deadline" (effective_weights none).1
        (effective_weights none).2.1 (effective_weights none).2.2 [t])), ?_⟩
    unfold prioritize_tasks
    rw [if_neg (by simp), if_neg (by decide)]

/-- C8 witness: the degradation at a concrete unparseable deadline. -/
theorem unparseable_deadline_degrades_witness :
    deadline_score 0 { name := "a", deadline := some "not-a-date" } = 3 ∧
    (deadline_method_score 0 { name := "a", deadline := some "not-a-date" }).1 = 0 ∧
    (∀ wi we wd : ℚ, weighted_score wi we wd 0 { name := "a", deadline := some "not-a-date" }
       = weighted_score wi we wd 0 { name := "a" }) ∧
    (deadline_method_score 0 { name := "a", deadline := some "not-a-date" }).1
       = (deadline_method_score 0 { name := "a" }).1 ∧
    (∃ o, prioritize_tasks 0 [{ name := "a", deadline := some "not-a-date" }]
      "weighted" none = .ok o) ∧
    (∃ o, prioritize_tasks 0 [{ name := "a", deadline := some "not-a-date" }]
      "deadline" none = .ok o) :=
  unparseable_deadline_degrades 0 { name := "a", deadline := some "not-a-date" }
    "not-a-date" rfl (by decide)

/-- C9 counterexample: under the deadline method a present-but-unparseable
deadline and a missing deadline field record the identical
`days_until_deadline` value (`None` both times): the two cases are collapsed
in that column, against the claim; the rows are told apart only by the
retained input `deadline` field. -/
theorem days_until_deadline_collapse :
    ∃ out, prioritize_tasks 0 [{ name := "a", deadline := some "not-a-date" },
        { name := "b" }] "deadline" none = .ok out ∧
      out.map RankedTask.days_until_deadline = [some none, some none] ∧
      out.map (fun r => r.task.deadline) = [some "not-a-date", none] := by
  refine ⟨_, rfl, by decide, by decide⟩

/-- C9 (amended): under the deadline method every row carries the
`days_until_deadline` key; its value is `None` both for a task whose
deadline string fails to parse and for a task with no deadline field, and
the two rows differ only through the retained original `deadline` field. -/
theorem days_until_deadline_null_both (today : Int) (wi we wd : ℚ) (t u : Task)
    (s : String) (ht : t.deadline = some s) (hp : parseYMD s.data = none)
    (hu : u.deadline = none) :
    scored_tasks today "deadline" wi we wd [t, u]
      = [{ task := t, priority_score := 0, days_until_deadline := some none },
         { task := u, priority_score := 0, days_until_deadline := some none }] ∧
    t ≠ u := by
  constructor
  · have hdm : deadline_method_score today t = (0, none) := by
      by_cases hs : s = ""
      · simp [deadline_method_score, ht, hs]
      · simp [deadline_method_score, ht, hs, hp]
    have hdu : deadline_method_score today u = (0, none) := by
      simp [deadline_method_score, hu]
    unfold scored_tasks
    rw [if_neg (by decide)]
    simp [hdm, hdu, ht, hu]
  · intro h
    rw [h, hu] at ht
    exact Option.noConfusion ht

/-- C9 witness: the amended statement at concrete tasks. -/
theorem days_until_deadline_null_both_witness :
    scored_tasks 0 "deadline" 1 1 1
        [{ name := "a", deadline := some "not-a-date" }, { name := "b" }]
      = [{ task := { name := "a", deadline := some "not-a-date" }, priority_score := 0,
           days_until_deadline := some none },
         { task := { name := "b" }, priority_score := 0,
           days_until_deadline := some none }] ∧
    ({ name := "a", deadline := some "not-a-date" } : Task) ≠ { name := "b" } :=
  days_until_deadline_null_both 0 1 1 1 { name := "a", deadline := some "not-a-date" }
    { name := "b" } "not-a-date" rfl (by decide) rfl

/-- C10: for every input the weighting loop gives every catalog record a
weight of at least 0.5, so the candidate list is never empty and the total
weight is strictly positive, both defensive fallback branches are
unreachable, and for valid arguments the weighted draw always selects a
record, so the call returns a result. -/
theorem get_affirmation_weights_safe (mood : String) (energy : Int)
    (category : Option String) :
    (∀ p ∈ candidate_list (preferred_categories mood category) (energy_category energy),
      1/2 ≤ p.2) ∧
    candidate_list (preferred_categories mood category) (energy_category energy) ≠ [] ∧
    0 < ((candidate_list (preferred_categories mood category)
      (energy_category energy)).map Prod.snd).sum ∧
    candidates_with_fallback (preferred_categories mood category) (energy_category energy)
      = candidate_list (preferred_categories mood category) (energy_category energy) ∧
    (∀ (g : Nat) (nm : String) (seed : Option Int),
      pyLower mood ∈ VALID_MOODS → 1 ≤ energy → energy ≤ 10 →
      (∀ c ∈ category, pyLower c ∈ VALID_CATEGORIES) →
      ∃ res, get_affirmation g nm mood energy category seed = .ok res) := by
  set preferred := preferred_categories mood category
  set ecat := energy_category energy
  have hall : ∀ p ∈ candidate_list preferred ecat, (1:ℚ)/2 ≤ p.2 := by
    intro p hp
    simp only [candidate_list, List.mem_map] at hp
    obtain ⟨a, _, rfl⟩ := hp
    exact affirmation_weight_ge_half preferred ecat a
  have hne := candidate_list_ne_nil preferred ecat
  have hsum : 0 < ((candidate_list preferred ecat).map Prod.snd).sum := by
    refine sum_pos_of_all_ge_half _ ?_ ?_
    · intro x hx
      simp only [List.mem_map] at hx
      obtain ⟨p, hp, rfl⟩ := hx
      exact hall p hp
    · simp [candidate_list, AFFIRMATIONS]
  have hfb : candidates_with_fallback preferred ecat = candidate_list preferred ecat := by
    unfold candidates_with_fallback
    rw [if_neg (by simpa [List.isEmpty_iff] using hne)]
    rw [if_neg (by simpa [List.isEmpty_iff] using hne)]
  refine ⟨hall, hne, hsum, hfb, ?_⟩
  intro g nm seed hmood h1 h10 hcat
  unfold get_affirmation
  rw [if_neg (by simpa using hmood)]
  rw [if_neg (by omega)]
  rw [if_neg ?hc]
  case hc =>
    cases category with
    | none => simp
    | some c => simpa using hcat c rfl
  obtain ⟨last, hlast⟩ : ∃ p, (candidates_with_fallback preferred ecat).getLast? = some p := by
    rw [hfb]
    cases h : (candidate_list preferred ecat).getLast? with
    | some p => exact ⟨p, rfl⟩
    | none => exact absurd (List.getLast?_eq_none_iff.mp h) hne
  simp only []
  unfold weighted_select
  rw [hlast]
  exact ⟨_, rfl⟩

/-- C10 witness: a successful selection at concrete valid arguments. -/
theorem get_affirmation_weights_safe_witness :
    ∃ res, get_affirmation 0 "Alice" "happy" 5 none none = .ok res :=
  (get_affirmation_weights_safe "happy" 5 none).2.2.2.2 0 "Alice" none
    (by decide) (by decide) (by decide) (by simp)

end DeepWork
